import Mathlib

/-!
The package `sectoralarm` of go-sectoralarm: a verification development.

A shallow embedding of `sectoralarm.go` (package `sectoralarm`) and theorems about it.

Modelling conventions.

* A Go `string` is modelled as a Lean `String`, that is, as text.  Go strings that are
  not valid UTF-8 are outside the model.
* A Go `error` is a `GoError`: either one made by this package with `errors.New`, or one
  handed over by the standard library (`net/http`, `io`, `encoding/json`).
* The network is a `Server`: a function giving, for the requests sent so far and the
  request being sent, either a transport error or a response.  The cookie jar of the
  client's `http.Client` is a function of the earlier responses, hence of the earlier
  requests, so it is part of what a `Server` stands for.  Every operation appends the
  requests it sends to a log.
* `encoding/json` decoding of a response body into a Go value is a parameter
  (`Decoders`); `regexp` is modelled by a backtracking matcher with leftmost-first,
  greedy semantics, which is the semantics of Go's `FindStringSubmatch`.
-/

set_option linter.dupNamespace false

namespace Sectoralarm

/-! ## JSON values (Go `interface{}` fields hold decoded JSON) -/

/-- A decoded JSON value. -/
inductive Json where
  | null
  | bool (b : Bool)
  | num (raw : String)
  | str (s : String)
  | arr (xs : List Json)
  | obj (members : List (String × Json))

/-! ## Data model -/

/-- The constant `BaseURL`. -/
def BaseURL : String := "https://mypagesapi.sectoralarm.net"

/-- The anonymous struct type of `Panel.Wifi`. -/
structure Wifi where
  WifiExist : Bool
  Serial : String

/-- The type `Panel`. -/
structure Panel where
  PartialAvalible : Bool
  PanelQuickArm : Bool
  PanelCodeLength : Int
  LockLanguage : Int
  SupportsApp : Bool
  SupportsInterviewServices : Bool
  SupportsPanelUsers : Bool
  SupportsTemporaryPanelUsers : Bool
  SupportsRegisterDevices : Bool
  CanAddDoorLock : Bool
  CanAddSmartPlug : Bool
  HasVideo : Bool
  Wifi : Wifi
  PanelID : String
  ArmedStatus : String
  PanelDisplayName : String
  StatusAnnex : String
  PanelTime : String
  AnnexAvalible : Bool
  IVDisplayStatus : Bool
  DisplayWizard : Bool
  BookedStartDate : String
  BookedEndDate : String
  InstallationStatus : Int
  InstallationAddress : Json
  WizardStep : Int
  AccessGroup : Int
  SessionExpires : String
  IsOnline : Bool

/-- The type `Smartplug`. -/
structure Smartplug where
  Consumption : Json
  DisplayScenarios : Bool
  ID : String
  Label : String
  PanelID : Json
  SerialNo : String
  Scenarios : Json
  Status : String
  TimerActive : Bool
  TimerEvents : Json
  TimerEventsSchedule : Json

/-- The type `Temperature`. -/
structure Temperature where
  ID : Json
  Label : String
  SerialNo : String
  Temperature : String
  DeviceID : Json

/-- The type `Overview`. -/
structure Overview where
  Panel : Panel
  Locks : List Json
  Smartplugs : List Smartplug
  Temperatures : List Temperature
  Cameras : List Json
  Photos : List Json
  Access : List String

/-- The type `Client`.  The field `HTTPClient` (the transport with its cookie jar) is
represented by the `Server` and the request log, see `State`. -/
structure Client where
  userID : String
  password : String
  BaseURL : String
  version : String
  deriving DecidableEq, Repr

/-! ## Errors, requests, responses -/

/-- A Go `error` value. -/
inductive GoError where
  /-- the value of `errors.New(msg)`, made by this package -/
  | errorsNew (msg : String)
  /-- an error handed over by `net/http`, `io` or `encoding/json` -/
  | foreign (msg : String)
  deriving DecidableEq, Repr

/-- An HTTP request as this package issues it. -/
structure Request where
  /-- whether it goes through the client's own `http.Client` (cookie jar, redirects not
  followed) or, as in `getVersion`, through the default one -/
  ownClient : Bool
  method : String
  url : String
  contentType : String
  body : String
  deriving DecidableEq, Repr

/-- A response body is a stream: the text it delivers, and the error that ends the
reading when the stream breaks before its end. -/
structure Body where
  data : String
  readErr : Option GoError
  deriving DecidableEq, Repr

/-- The fields of `http.Response` that this package reads. -/
structure Response where
  StatusCode : Int
  Status : String
  Body : Body
  deriving DecidableEq, Repr

/-- The network: given the requests sent earlier and the request being sent, a transport
error or the response. -/
abbrev Server := List Request → Request → Except GoError Response

/-- A client together with the log of all requests sent so far. -/
structure State where
  client : Client
  log : List Request
  deriving DecidableEq, Repr

/-- The result of `ioutil.ReadAll`: the text read, and the read error if any. -/
def ReadAll (b : Body) : String × Option GoError := (b.data, b.readErr)

/-- The three uses of `json.NewDecoder(resp.Body).Decode` in this package. -/
structure Decoders where
  panels : Body → Except GoError (List Panel)
  temperatures : Body → Except GoError (List Temperature)
  /-- the target is a `*Overview`, which JSON `null` leaves `nil` -/
  overview : Body → Except GoError (Option Overview)

/-! ## Regular expressions (the fragment of `regexp` syntax that the package uses) -/

/-- One element of a compiled pattern. -/
inductive Item where
  /-- a literal character, also an escaped one such as `\?` -/
  | char (c : Char)
  /-- the dot `.`: any character except a newline -/
  | anyNotNL
  /-- a starred class `[...]*`: greedy repetition of a character class given by its ranges -/
  | starClass (ranges : List (Char × Char))
  /-- an opening parenthesis: capture group 1 starts -/
  | groupOpen
  /-- a closing parenthesis: capture group 1 ends -/
  | groupClose
  deriving DecidableEq, Repr

/-- Membership in a character class. -/
def inClass (ranges : List (Char × Char)) (c : Char) : Bool :=
  ranges.any fun r => decide (r.1.toNat ≤ c.toNat ∧ c.toNat ≤ r.2.toNat)

/-- What a match records: where group 1 starts and ends and where the match ends, each
as the input that remains at that point. -/
structure Slots where
  groupStart : Option (List Char)
  groupEnd : Option (List Char)
  matchEnd : List Char
  deriving DecidableEq, Repr

/-- Greedy repetition: take as many characters satisfying `p` as possible, giving one
back at a time while the continuation `k` fails. -/
def starLoop (p : Char → Bool) (k : List Char → Option Slots) : List Char → Option Slots
  | [] => k []
  | x :: xs =>
    if p x then
      match starLoop p k xs with
      | some r => some r
      | none => k (x :: xs)
    else k (x :: xs)

/-- Match a pattern at the start of the input. -/
def matchHere : List Item → List Char → Slots → Option Slots
  | [], xs, s => some { s with matchEnd := xs }
  | Item.char c :: ps, xs, s =>
    match xs with
    | x :: rest => if x = c then matchHere ps rest s else none
    | [] => none
  | Item.anyNotNL :: ps, xs, s =>
    match xs with
    | x :: rest => if x = '\n' then none else matchHere ps rest s
    | [] => none
  | Item.starClass ranges :: ps, xs, s =>
    starLoop (inClass ranges) (fun ys => matchHere ps ys s) xs
  | Item.groupOpen :: ps, xs, s => matchHere ps xs { s with groupStart := some xs }
  | Item.groupClose :: ps, xs, s => matchHere ps xs { s with groupEnd := some xs }

/-- No slot is set. -/
def noSlots : Slots := { groupStart := none, groupEnd := none, matchEnd := [] }

/-- The leftmost match: the input remaining at its start, and its slots. -/
def search (ps : List Item) : List Char → Option (List Char × Slots)
  | [] => (matchHere ps [] noSlots).map fun sl => ([], sl)
  | x :: rest =>
    match matchHere ps (x :: rest) noSlots with
    | some sl => some (x :: rest, sl)
    | none => search ps rest

/-- The text between two points of the input, each given by what remains there. -/
def between (start stop : List Char) : String :=
  String.mk (start.take (start.length - stop.length))

/-- The method `FindStringSubmatch` for a pattern with one capture group: `nil` when
there is no match, else the text of the match and the text of group 1. -/
def FindStringSubmatch (ps : List Item) (s : String) : List String :=
  match search ps s.data with
  | none => []
  | some (start, sl) =>
    [between start sl.matchEnd,
     match sl.groupStart, sl.groupEnd with
     | some a, some b => between a b
     | _, _ => ""]

/-- The pattern of `getVersion`, compiled:
`"/Scripts/main.js\?(v[A-Z0-9_]*)"`.  The `?` is escaped in the source, the `.` is not. -/
def versionPattern : List Item :=
  "\"/Scripts/main".data.map Item.char ++ [Item.anyNotNL] ++ "js?".data.map Item.char ++
  [Item.groupOpen, Item.char 'v', Item.starClass [('A', 'Z'), ('0', '9'), ('_', '_')],
   Item.groupClose, Item.char '"']

/-! ## The session manager -/

/-- The function `NewClient`.  `cookiejar.New(nil)` returns no error. -/
def NewClient (userID password : String) : Except GoError Client :=
  Except.ok { userID := userID, password := password, BaseURL := BaseURL, version := "" }

/-- The request of `http.Get(BaseURL)`. -/
def versionRequest : Request :=
  { ownClient := false, method := "GET", url := BaseURL, contentType := "", body := "" }

/-- What `getVersion` does with the body it has read. -/
def extractVersion (body : String) : Except GoError String :=
  match FindStringSubmatch versionPattern body with
  | _ :: v :: _ => Except.ok v
  | _ => Except.error (GoError.errorsNew "Can't find version string")

/-- The function `getVersion`.  The error of `ioutil.ReadAll` is assigned and not
looked at. -/
def getVersion (srv : Server) (log : List Request) : Except GoError String × List Request :=
  match srv log versionRequest with
  | Except.error err => (Except.error err, log ++ [versionRequest])
  | Except.ok resp =>
    let (body, _) := ReadAll resp.Body
    (extractVersion body, log ++ [versionRequest])

/-- The request of `Login`. -/
def loginRequest (c : Client) : Request :=
  { ownClient := true, method := "POST", url := c.BaseURL ++ "/User/Login",
    contentType := "application/x-www-form-urlencoded",
    body := "userID=" ++ c.userID ++ "&password=" ++ c.password }

/-- The method `Client.Login`: the error returned (`none` for `nil`) and the state after
the call.  `c.version, err = getVersion()` assigns the version also when `getVersion`
fails, and then assigns the empty string. -/
def Login (srv : Server) (st : State) : Option GoError × State :=
  let c := st.client
  let log1 := st.log ++ [loginRequest c]
  match srv st.log (loginRequest c) with
  | Except.error err => (some err, { st with log := log1 })
  | Except.ok resp =>
    if resp.StatusCode ≠ 302 then
      (some (GoError.errorsNew "Can't login"), { st with log := log1 })
    else
      match getVersion srv log1 with
      | (Except.error err, log2) => (some err, { client := { c with version := "" }, log := log2 })
      | (Except.ok v, log2) => (none, { client := { c with version := v }, log := log2 })

/-! ## The resource fetchers -/

/-- The request of `GetPanelList`. -/
def panelListRequest (c : Client) : Request :=
  { ownClient := true, method := "GET", url := c.BaseURL ++ "/Panel/GetPanelList/",
    contentType := "", body := "" }

/-- The request body of `GetTemperatures` and of `GetOverview`, the same expression in
both: the concatenation of the literal pieces with the panel identifier and the version. -/
def panelBody (panelID version : String) : String :=
  "\x7b\"id\":\"" ++ panelID ++ "\",\"Version\":\"" ++ version ++ "\"\x7d"

/-- The request of `GetTemperatures`. -/
def temperaturesRequest (c : Client) (panelID : String) : Request :=
  { ownClient := true, method := "POST", url := c.BaseURL ++ "/Panel/GetTempratures/",
    contentType := "application/json;charset=utf-8", body := panelBody panelID c.version }

/-- The request of `GetOverview`. -/
def overviewRequest (c : Client) (panelID : String) : Request :=
  { ownClient := true, method := "POST", url := c.BaseURL ++ "/Panel/GetOverview/",
    contentType := "application/json;charset=utf-8", body := panelBody panelID c.version }

/-- The method `Client.GetPanelList`. -/
def GetPanelList (dec : Decoders) (srv : Server) (st : State) :
    Except GoError (List Panel) × State :=
  let req := panelListRequest st.client
  let st1 : State := { st with log := st.log ++ [req] }
  match srv st.log req with
  | Except.error err => (Except.error err, st1)
  | Except.ok resp =>
    match dec.panels resp.Body with
    | Except.error err => (Except.error err, st1)
    | Except.ok panels => (Except.ok panels, st1)

/-- The method `Client.GetTemperatures`. -/
def GetTemperatures (dec : Decoders) (srv : Server) (panelID : String) (st : State) :
    Except GoError (List Temperature) × State :=
  let req := temperaturesRequest st.client panelID
  let st1 : State := { st with log := st.log ++ [req] }
  match srv st.log req with
  | Except.error err => (Except.error err, st1)
  | Except.ok resp =>
    if resp.StatusCode ≠ 200 then
      (Except.error (GoError.errorsNew resp.Status), st1)
    else
      match dec.temperatures resp.Body with
      | Except.error err => (Except.error err, st1)
      | Except.ok temperatures => (Except.ok temperatures, st1)

/-- The method `Client.GetOverview`. -/
def GetOverview (dec : Decoders) (srv : Server) (panelID : String) (st : State) :
    Except GoError (Option Overview) × State :=
  let req := overviewRequest st.client panelID
  let st1 : State := { st with log := st.log ++ [req] }
  match srv st.log req with
  | Except.error err => (Except.error err, st1)
  | Except.ok resp =>
    match dec.overview resp.Body with
    | Except.error err => (Except.error err, st1)
    | Except.ok overview => (Except.ok overview, st1)

/-- A fetch call, for statements about sequences of calls. -/
inductive Fetch where
  | panelList
  | temperatures (panelID : String)
  | overview (panelID : String)

/-- The state after a fetch call. -/
def Fetch.run (dec : Decoders) (srv : Server) (st : State) : Fetch → State
  | Fetch.panelList => (GetPanelList dec srv st).2
  | Fetch.temperatures panelID => (GetTemperatures dec srv panelID st).2
  | Fetch.overview panelID => (GetOverview dec srv panelID st).2

/-- The request a fetch call sends for a client. -/
def Fetch.request (c : Client) : Fetch → Request
  | Fetch.panelList => panelListRequest c
  | Fetch.temperatures panelID => temperaturesRequest c panelID
  | Fetch.overview panelID => overviewRequest c panelID

/-! ## Concrete servers and decoders used in closed statements -/

/-- A response with the given status and an unbroken body. -/
def plainResponse (code : Int) (status body : String) : Response :=
  { StatusCode := code, Status := status, Body := { data := body, readErr := none } }

/-- A decoder set that knows two bodies only: `[]` is the empty list and `null` is the
empty value. -/
def tinyDecoders : Decoders :=
  { panels := fun b =>
      if b.data = "[]" then Except.ok [] else Except.error (GoError.foreign "invalid character"),
    temperatures := fun b =>
      if b.data = "[]" then Except.ok [] else Except.error (GoError.foreign "invalid character"),
    overview := fun b =>
      if b.data = "null" then Except.ok none else Except.error (GoError.foreign "invalid character") }

/-- A server that answers every request with the given status and the body `null`. -/
def nullServer (code : Int) (status : String) : Server :=
  fun _ _ => Except.ok (plainResponse code status "null")

/-- A server that answers every request with `401 Unauthorized`. -/
def unauthorizedServer : Server :=
  fun _ _ => Except.ok (plainResponse 401 "401 Unauthorized" "[]")

/-- The landing page of the portal, as far as it matters here. -/
def landingPage : String := "<script src=\"/Scripts/main.js?vAB12_CD\"></script>"

/-- A server that accepts the login with a 302 and serves the landing page. -/
def portalServer : Server :=
  fun _ req =>
    if req.method = "POST" then Except.ok (plainResponse 302 "302 Found" "")
    else Except.ok (plainResponse 200 "200 OK" landingPage)

/-- A server that accepts the login with a 302 and whose landing page breaks off with a
read error after the script reference. -/
def brokenLandingServer : Server :=
  fun _ req =>
    if req.method = "POST" then Except.ok (plainResponse 302 "302 Found" "")
    else Except.ok
      { StatusCode := 200, Status := "200 OK",
        Body := { data := "<script src=\"/Scripts/main.js?vAB12_CD\"></scr",
                  readErr := some (GoError.foreign "unexpected EOF") } }

/-- A freshly constructed client with an empty request log. -/
def freshState : State :=
  { client := { userID := "user@example.com", password := "secret", BaseURL := BaseURL,
                version := "" },
    log := [] }

/-! ## Definitions that follow the words of the specification -/

/-- The characters of a version token: `A` to `Z`, `0` to `9` and `_`. -/
def tokenChars : List Char := "ABCDEFGHIJKLMNOPQRSTUVWXYZ0123456789_".data

/-- Follows the words of the specification, not the source: the script reference
`"/Scripts/main.js?v<TOKEN>"` with its opening quote, a literal dot, a token and the
closing quote. -/
def scriptReferencePattern : List Item :=
  "\"/Scripts/main.js?".data.map Item.char ++
  [Item.groupOpen, Item.char 'v', Item.starClass [('A', 'Z'), ('0', '9'), ('_', '_')],
   Item.groupClose, Item.char '"']

/-- Whether a body contains a script reference in the sense of the specification. -/
def containsScriptReference (body : String) : Bool :=
  (search scriptReferencePattern body.data).isSome

/-- A page that refers to another script, `main-js`. -/
def lookalikePage : String := "<script src=\"/Scripts/main-js?vAB12_CD\"></script>"

/-- A server that serves `lookalikePage`. -/
def lookalikeServer : Server :=
  fun _ _ => Except.ok (plainResponse 200 "200 OK" lookalikePage)

/-! ## JSON texts (RFC 8259), to judge the request bodies -/

/-- JSON whitespace. -/
def isWs (c : Char) : Bool := c = ' ' ∨ c = '\t' ∨ c = '\n' ∨ c = '\r'

/-- Drop leading whitespace. -/
def skipWs : List Char → List Char
  | [] => []
  | c :: cs => if isWs c then skipWs cs else c :: cs

/-- The value of a hexadecimal digit. -/
def hexVal (c : Char) : Option Nat :=
  if '0'.toNat ≤ c.toNat ∧ c.toNat ≤ '9'.toNat then some (c.toNat - '0'.toNat)
  else if 'a'.toNat ≤ c.toNat ∧ c.toNat ≤ 'f'.toNat then some (c.toNat - 'a'.toNat + 10)
  else if 'A'.toNat ≤ c.toNat ∧ c.toNat ≤ 'F'.toNat then some (c.toNat - 'A'.toNat + 10)
  else none

/-- Four hexadecimal digits, as after `\u`. -/
def hex4 : List Char → Option (Nat × List Char)
  | a :: b :: c :: d :: rest =>
    match hexVal a, hexVal b, hexVal c, hexVal d with
    | some x, some y, some z, some w => some (((x * 16 + y) * 16 + z) * 16 + w, rest)
    | _, _, _, _ => none
  | _ => none

/-- The character of a two-character escape such as `\n`. -/
def simpleEscape (e : Char) : Option Char :=
  if e = '"' then some '"'
  else if e = '\\' then some '\\'
  else if e = '/' then some '/'
  else if e = 'b' then some (Char.ofNat 8)
  else if e = 'f' then some (Char.ofNat 12)
  else if e = 'n' then some '\n'
  else if e = 'r' then some '\r'
  else if e = 't' then some '\t'
  else none

/-- A `\uXXXX` escape at the start of the input. -/
def unicodeEscape : List Char → Option (Nat × List Char)
  | b :: u :: rest => if b = '\\' ∧ u = 'u' then hex4 rest else none
  | _ => none

/-- Put a character in front of a parsed string. -/
def consChar (c : Char) (r : Option (List Char × List Char)) : Option (List Char × List Char) :=
  r.map fun p => (c :: p.1, p.2)

/-- The content of a JSON string, after its opening quote: the decoded characters and
the input after the closing quote.  A control character, a bad escape or the end of the
input give `none`.  A surrogate escape that is not the first half of a valid pair decodes
to U+FFFD, as `encoding/json` has it. -/
def parseStringBody : Nat → List Char → Option (List Char × List Char)
  | 0, _ => none
  | _ + 1, [] => none
  | fuel + 1, c :: cs =>
    if c = '"' then some ([], cs)
    else if c = '\\' then
      match cs with
      | [] => none
      | e :: es =>
        if e = 'u' then
          match hex4 es with
          | none => none
          | some (u, rest) =>
            if 0xD800 ≤ u ∧ u < 0xE000 then
              match unicodeEscape rest with
              | some (lo, rest2) =>
                if u < 0xDC00 ∧ 0xDC00 ≤ lo ∧ lo < 0xE000 then
                  consChar (Char.ofNat (0x10000 + (u - 0xD800) * 0x400 + (lo - 0xDC00)))
                    (parseStringBody fuel rest2)
                else consChar (Char.ofNat 0xFFFD) (parseStringBody fuel rest)
              | none => consChar (Char.ofNat 0xFFFD) (parseStringBody fuel rest)
            else consChar (Char.ofNat u) (parseStringBody fuel rest)
        else
          match simpleEscape e with
          | some x => consChar x (parseStringBody fuel es)
          | none => none
    else if c.toNat < 0x20 then none
    else consChar c (parseStringBody fuel cs)

/-- A decimal digit. -/
def isDigit (c : Char) : Bool := decide ('0'.toNat ≤ c.toNat ∧ c.toNat ≤ '9'.toNat)

/-- The leading digits and the rest. -/
def takeDigits : List Char → List Char × List Char
  | [] => ([], [])
  | c :: cs => if isDigit c then ((c :: (takeDigits cs).1), (takeDigits cs).2) else ([], c :: cs)

/-- The integer part of a number: `0`, or a digit from 1 to 9 followed by digits. -/
def parseInt : List Char → Option (List Char × List Char)
  | [] => none
  | c :: rest =>
    if c = '0' then some (['0'], rest)
    else if isDigit c then some (c :: (takeDigits rest).1, (takeDigits rest).2)
    else none

/-- The optional fraction of a number. -/
def parseFrac : List Char → Option (List Char × List Char)
  | [] => some ([], [])
  | c :: rest =>
    if c = '.' then
      match takeDigits rest with
      | ([], _) => none
      | (ds, r) => some ('.' :: ds, r)
    else some ([], c :: rest)

/-- An optional sign of an exponent. -/
def takeSign : List Char → List Char × List Char
  | [] => ([], [])
  | c :: rest => if c = '+' ∨ c = '-' then ([c], rest) else ([], c :: rest)

/-- The optional exponent of a number. -/
def parseExp : List Char → Option (List Char × List Char)
  | [] => some ([], [])
  | c :: rest =>
    if c = 'e' ∨ c = 'E' then
      match takeDigits (takeSign rest).2 with
      | ([], _) => none
      | (ds, r) => some (c :: (takeSign rest).1 ++ ds, r)
    else some ([], c :: rest)

/-- A JSON number, kept as its text. -/
def parseNumber (cs : List Char) : Option (String × List Char) :=
  let signed : List Char × List Char :=
    match cs with
    | [] => ([], [])
    | c :: rest => if c = '-' then (['-'], rest) else ([], c :: rest)
  match parseInt signed.2 with
  | none => none
  | some (i, r1) =>
    match parseFrac r1 with
    | none => none
    | some (f, r2) =>
      match parseExp r2 with
      | none => none
      | some (e, r3) => some (String.mk (signed.1 ++ i ++ f ++ e), r3)

/-- Drop a given prefix from the input. -/
def dropPrefix : List Char → List Char → Option (List Char)
  | [], cs => some cs
  | _ :: _, [] => none
  | p :: ps, c :: cs => if p = c then dropPrefix ps cs else none

/-- The elements of a non-empty array after its `[`, up to and including the `]`; `pv`
parses one value. -/
def parseElements (pv : List Char → Option (Json × List Char)) :
    Nat → List Char → Option (List Json × List Char)
  | 0, _ => none
  | n + 1, cs =>
    match pv cs with
    | none => none
    | some (v, r) =>
      match skipWs r with
      | [] => none
      | c :: r2 =>
        if c = ']' then some ([v], r2)
        else if c = ',' then (parseElements pv n r2).map fun p => (v :: p.1, p.2)
        else none

/-- The members of a non-empty object after its `{`, up to and including the `}`; `pv`
parses one value. -/
def parseMembers (pv : List Char → Option (Json × List Char)) :
    Nat → List Char → Option (List (String × Json) × List Char)
  | 0, _ => none
  | n + 1, cs =>
    match skipWs cs with
    | [] => none
    | q :: r0 =>
      if q = '"' then
        match parseStringBody r0.length r0 with
        | none => none
        | some (k, r1) =>
          match skipWs r1 with
          | [] => none
          | colon :: r2 =>
            if colon = ':' then
              match pv r2 with
              | none => none
              | some (v, r3) =>
                match skipWs r3 with
                | [] => none
                | c :: r4 =>
                  if c = '}' then some ([(String.mk k, v)], r4)
                  else if c = ',' then
                    (parseMembers pv n r4).map fun p => ((String.mk k, v) :: p.1, p.2)
                  else none
            else none
      else none

/-- A JSON value at the start of the input, after optional whitespace.  The first
argument bounds the nesting depth. -/
def parseValue : Nat → List Char → Option (Json × List Char)
  | 0, _ => none
  | fuel + 1, cs =>
    match skipWs cs with
    | [] => none
    | c :: rest =>
      if c = '"' then
        (parseStringBody rest.length rest).map fun p => (Json.str (String.mk p.1), p.2)
      else if c = '[' then
        match skipWs rest with
        | [] => none
        | d :: rest2 =>
          if d = ']' then some (Json.arr [], rest2)
          else (parseElements (parseValue fuel) rest.length (d :: rest2)).map
            fun p => (Json.arr p.1, p.2)
      else if c = '\x7b' then
        match skipWs rest with
        | [] => none
        | d :: rest2 =>
          if d = '\x7d' then some (Json.obj [], rest2)
          else (parseMembers (parseValue fuel) rest.length (d :: rest2)).map
            fun p => (Json.obj p.1, p.2)
      else if c = 't' then (dropPrefix "rue".data rest).map fun r => (Json.bool true, r)
      else if c = 'f' then (dropPrefix "alse".data rest).map fun r => (Json.bool false, r)
      else if c = 'n' then (dropPrefix "ull".data rest).map fun r => (Json.null, r)
      else (parseNumber (c :: rest)).map fun p => (Json.num p.1, p.2)

/-- A JSON text: one value with optional whitespace around it and nothing else. -/
def parseJson (s : String) : Option Json :=
  match parseValue (s.length + 1) s.data with
  | none => none
  | some (v, rest) => if skipWs rest = [] then some v else none

/-- The members of an object, when each value is a string. -/
def stringMembers : List (String × Json) → Option (List (String × String))
  | [] => some []
  | (k, Json.str s) :: rest => (stringMembers rest).map fun ms => (k, s) :: ms
  | _ => none

/-- The members of a JSON text that is an object whose values are all strings, in the
order of the text; `none` for a text that is not well formed or not such an object. -/
def jsonStringMembers (s : String) : Option (List (String × String)) :=
  match parseJson s with
  | some (Json.obj ms) => stringMembers ms
  | _ => none

/-- A character that a JSON string holds as it is: not a quote, not a backslash, not a
control character. -/
def jsonPlain (c : Char) : Bool := c ≠ '"' && c ≠ '\\' && decide (0x20 ≤ c.toNat)

/-! ## The media type `application/x-www-form-urlencoded`, to judge the login body

The parser of the URL standard, on bytes: split at `&`, drop empty pieces, cut each piece
at its first `=`, turn `+` into a space, decode percent escapes.  Names and values are
compared as UTF-8 byte strings. -/

/-- The UTF-8 encoding of a character. -/
def utf8EncodeChar (c : Char) : List Nat :=
  if c.toNat < 0x80 then [c.toNat]
  else if c.toNat < 0x800 then [0xC0 + c.toNat / 0x40, 0x80 + c.toNat % 0x40]
  else if c.toNat < 0x10000 then
    [0xE0 + c.toNat / 0x1000, 0x80 + c.toNat / 0x40 % 0x40, 0x80 + c.toNat % 0x40]
  else
    [0xF0 + c.toNat / 0x40000, 0x80 + c.toNat / 0x1000 % 0x40, 0x80 + c.toNat / 0x40 % 0x40,
     0x80 + c.toNat % 0x40]

/-- The bytes of a text. -/
def utf8Bytes : List Char → List Nat
  | [] => []
  | c :: cs => utf8EncodeChar c ++ utf8Bytes cs

/-- The bytes of a string. -/
def utf8 (s : String) : List Nat := utf8Bytes s.data

/-- Split a byte string at every occurrence of a separator. -/
def splitBytes (sep : Nat) : List Nat → List (List Nat)
  | [] => [[]]
  | b :: bs =>
    if b = sep then [] :: splitBytes sep bs
    else
      match splitBytes sep bs with
      | [] => [[b]]
      | piece :: pieces => (b :: piece) :: pieces

/-- Cut a piece at its first `=`: the name before it and the value after it; a piece
without `=` is a name with the empty value. -/
def cutAtEquals : List Nat → List Nat × List Nat
  | [] => ([], [])
  | b :: bs => if b = 0x3D then ([], bs) else (b :: (cutAtEquals bs).1, (cutAtEquals bs).2)

/-- Replace every `+` by a space. -/
def plusToSpace (bs : List Nat) : List Nat := bs.map fun b => if b = 0x2B then 0x20 else b

/-- The value of a byte that is a hexadecimal digit. -/
def hexByte (b : Nat) : Option Nat :=
  if 0x30 ≤ b ∧ b ≤ 0x39 then some (b - 0x30)
  else if 0x41 ≤ b ∧ b ≤ 0x46 then some (b - 0x41 + 10)
  else if 0x61 ≤ b ∧ b ≤ 0x66 then some (b - 0x61 + 10)
  else none

/-- Percent-decode: `%` followed by two hexadecimal digits is the byte they name, every
other byte stands for itself. -/
def percentDecode : Nat → List Nat → List Nat
  | 0, _ => []
  | _ + 1, [] => []
  | fuel + 1, b :: rest =>
    if b = 0x25 then
      match rest with
      | h :: l :: rest2 =>
        match hexByte h, hexByte l with
        | some x, some y => (x * 16 + y) :: percentDecode fuel rest2
        | _, _ => b :: percentDecode fuel rest
      | _ => b :: percentDecode fuel rest
    else b :: percentDecode fuel rest

/-- A name or a value of a piece, decoded. -/
def decodeComponent (bs : List Nat) : List Nat := percentDecode bs.length (plusToSpace bs)

/-- The name-value pairs of a form-encoded byte string, in order. -/
def formDecode (bytes : List Nat) : List (List Nat × List Nat) :=
  ((splitBytes 0x26 bytes).filter fun piece => !piece.isEmpty).map fun piece =>
    (decodeComponent (cutAtEquals piece).1, decodeComponent (cutAtEquals piece).2)

/-- A character that a form-encoded value holds as it is. -/
def formPlain (c : Char) : Bool := c ≠ '&' && c ≠ '+' && c ≠ '%'

/-- A client after a login, with an empty request log. -/
def loggedInState : State :=
  { client := { userID := "user@example.com", password := "secret", BaseURL := BaseURL,
                version := "vAB12_CD" },
    log := [] }

/-! ## Theorems -/

/-- The state after `GetPanelList`, whatever the server answers. -/
theorem GetPanelList_state (dec : Decoders) (srv : Server) (s : State) :
    (GetPanelList dec srv s).2
      = { client := s.client, log := s.log ++ [panelListRequest s.client] } := by
  cases h : srv s.log (panelListRequest s.client) with
  | error e => simp [GetPanelList, h]
  | ok r => cases h2 : dec.panels r.Body <;> simp [GetPanelList, h, h2]

/-- The state after `GetTemperatures`, whatever the server answers. -/
theorem GetTemperatures_state (dec : Decoders) (srv : Server) (p : String) (s : State) :
    (GetTemperatures dec srv p s).2
      = { client := s.client, log := s.log ++ [temperaturesRequest s.client p] } := by
  cases h : srv s.log (temperaturesRequest s.client p) with
  | error e => simp [GetTemperatures, h]
  | ok r =>
    by_cases hc : r.StatusCode = 200
    · cases h2 : dec.temperatures r.Body <;> simp [GetTemperatures, h, hc, h2]
    · simp [GetTemperatures, h, hc]

/-- The state after `GetOverview`, whatever the server answers. -/
theorem GetOverview_state (dec : Decoders) (srv : Server) (p : String) (s : State) :
    (GetOverview dec srv p s).2
      = { client := s.client, log := s.log ++ [overviewRequest s.client p] } := by
  cases h : srv s.log (overviewRequest s.client p) with
  | error e => simp [GetOverview, h]
  | ok r => cases h2 : dec.overview r.Body <;> simp [GetOverview, h, h2]

/-- The first request of `Login` is the login POST. -/
theorem Login_log (srv : Server) (st : State) :
    ∃ more, (Login srv st).2.log = st.log ++ loginRequest st.client :: more := by
  cases h1 : srv st.log (loginRequest st.client) with
  | error e => exact ⟨[], by simp [Login, h1]⟩
  | ok resp =>
    by_cases h2 : resp.StatusCode = 302
    · refine ⟨[versionRequest], ?_⟩
      cases h3 : srv (st.log ++ [loginRequest st.client]) versionRequest with
      | error e => simp [Login, getVersion, h1, h2, h3]
      | ok landing =>
        cases h4 : extractVersion landing.Body.data <;>
          simp [Login, getVersion, ReadAll, h1, h2, h3, h4]
    · exact ⟨[], by simp [Login, h1, h2]⟩

/-- C1: when the login response arrives without transport error and its status is not
302, `Login` returns the error `errors.New("Can't login")`, the only request it sends is
the login POST (which is not the version-discovery request), and the version token keeps
its value; a client made by `NewClient` has the empty version token. -/
theorem login_rejected_on_non_302 (srv : Server) (st : State) (resp : Response)
    (hresp : srv st.log (loginRequest st.client) = Except.ok resp)
    (hcode : resp.StatusCode ≠ 302) :
    (Login srv st).1 = some (GoError.errorsNew "Can't login") ∧
    (Login srv st).2.log = st.log ++ [loginRequest st.client] ∧
    loginRequest st.client ≠ versionRequest ∧
    (Login srv st).2.client = st.client ∧
    (Login srv st).2.client.version = st.client.version ∧
    (∀ u p c, NewClient u p = Except.ok c → c.version = "") := by
  have hne : loginRequest st.client ≠ versionRequest := by
    intro h
    have hm := congrArg Request.method h
    simp [loginRequest, versionRequest] at hm
  have hnew : ∀ u p c, NewClient u p = Except.ok c → c.version = "" := by
    intro u p c h
    simp only [NewClient, Except.ok.injEq] at h
    rw [← h]
  have hL : Login srv st = (some (GoError.errorsNew "Can't login"),
      { client := st.client, log := st.log ++ [loginRequest st.client] }) := by
    simp [Login, hresp, hcode]
  rw [hL]
  exact ⟨rfl, rfl, hne, rfl, rfl, hnew⟩

/-- Witness for C1: a server answering 401. -/
theorem login_rejected_on_non_302_witness :
    (Login unauthorizedServer freshState).1 = some (GoError.errorsNew "Can't login") ∧
    (Login unauthorizedServer freshState).2.log
      = freshState.log ++ [loginRequest freshState.client] ∧
    loginRequest freshState.client ≠ versionRequest ∧
    (Login unauthorizedServer freshState).2.client = freshState.client ∧
    (Login unauthorizedServer freshState).2.client.version = freshState.client.version ∧
    (∀ u p c, NewClient u p = Except.ok c → c.version = "") :=
  login_rejected_on_non_302 unauthorizedServer freshState
    (plainResponse 401 "401 Unauthorized" "[]") rfl (by decide)

/-- C2: `Login` returns no error exactly when the login POST is answered with status 302
and the version is extracted from the landing-page body that was read; the version token
of the client is then the extracted token. -/
theorem login_succeeds_iff (srv : Server) (st : State) :
    ((Login srv st).1 = none ↔
      ∃ resp landing v,
        srv st.log (loginRequest st.client) = Except.ok resp ∧ resp.StatusCode = 302 ∧
        srv (st.log ++ [loginRequest st.client]) versionRequest = Except.ok landing ∧
        extractVersion landing.Body.data = Except.ok v) ∧
    (∀ resp landing v,
        srv st.log (loginRequest st.client) = Except.ok resp → resp.StatusCode = 302 →
        srv (st.log ++ [loginRequest st.client]) versionRequest = Except.ok landing →
        extractVersion landing.Body.data = Except.ok v →
        (Login srv st).1 = none ∧ (Login srv st).2.client.version = v) := by
  have key : ∀ resp landing v,
      srv st.log (loginRequest st.client) = Except.ok resp → resp.StatusCode = 302 →
      srv (st.log ++ [loginRequest st.client]) versionRequest = Except.ok landing →
      extractVersion landing.Body.data = Except.ok v →
      (Login srv st).1 = none ∧ (Login srv st).2.client.version = v := by
    intro resp landing v h1 h2 h3 h4
    simp [Login, getVersion, ReadAll, h1, h2, h3, h4]
  refine ⟨⟨?_, ?_⟩, key⟩
  · intro h
    cases h1 : srv st.log (loginRequest st.client) with
    | error e => simp [Login, h1] at h
    | ok resp =>
      by_cases h2 : resp.StatusCode = 302
      · cases h3 : srv (st.log ++ [loginRequest st.client]) versionRequest with
        | error e => simp [Login, getVersion, h1, h2, h3] at h
        | ok landing =>
          cases h4 : extractVersion landing.Body.data with
          | error e => simp [Login, getVersion, ReadAll, h1, h2, h3, h4] at h
          | ok v => exact ⟨resp, landing, v, rfl, h2, rfl, h4⟩
      · simp [Login, h1, h2] at h
  · rintro ⟨resp, landing, v, h1, h2, h3, h4⟩
    exact (key resp landing v h1 h2 h3 h4).1

/-- Witness for C2: the portal accepts the login and serves the landing page. -/
theorem login_succeeds_iff_witness :
    (Login portalServer freshState).1 = none ∧
    (Login portalServer freshState).2.client.version = "vAB12_CD" :=
  (login_succeeds_iff portalServer freshState).2 (plainResponse 302 "302 Found" "")
    (plainResponse 200 "200 OK" landingPage) "vAB12_CD" rfl rfl rfl rfl

/-- C5: when the response of `GetTemperatures` arrives without transport error and its
status code is not 200, the call returns no temperatures and the error
`errors.New(resp.Status)`, whatever the body is and whatever the decoder would make of it. -/
theorem temperatures_non_200 (dec : Decoders) (srv : Server) (panelID : String) (st : State)
    (resp : Response)
    (hresp : srv st.log (temperaturesRequest st.client panelID) = Except.ok resp)
    (hcode : resp.StatusCode ≠ 200) :
    (GetTemperatures dec srv panelID st).1 = Except.error (GoError.errorsNew resp.Status) := by
  simp [GetTemperatures, hresp, hcode]

/-- Witness for C5: a 401 whose body is a JSON array that the decoder accepts. -/
theorem temperatures_non_200_witness :
    tinyDecoders.temperatures (plainResponse 401 "401 Unauthorized" "[]").Body = Except.ok [] ∧
    (GetTemperatures tinyDecoders unauthorizedServer "42" freshState).1
      = Except.error (GoError.errorsNew "401 Unauthorized") :=
  ⟨rfl, temperatures_non_200 tinyDecoders unauthorizedServer "42" freshState
    (plainResponse 401 "401 Unauthorized" "[]") rfl (by decide)⟩

/-- C6: when the response of `GetOverview` arrives without transport error, the result is
what the decoder makes of the body (the decoded value, or the decode error and no value);
the status code plays no part, so a second response with the same body gives the same
result. -/
theorem overview_depends_on_body_only (dec : Decoders) (srv : Server) (panelID : String)
    (st : State) (resp : Response)
    (hresp : srv st.log (overviewRequest st.client panelID) = Except.ok resp) :
    (GetOverview dec srv panelID st).1 = dec.overview resp.Body ∧
    ∀ (srv2 : Server) (resp2 : Response),
      srv2 st.log (overviewRequest st.client panelID) = Except.ok resp2 →
      resp2.Body = resp.Body →
      (GetOverview dec srv2 panelID st).1 = (GetOverview dec srv panelID st).1 := by
  have h : ∀ (s : Server) (r : Response),
      s st.log (overviewRequest st.client panelID) = Except.ok r →
      (GetOverview dec s panelID st).1 = dec.overview r.Body := by
    intro s r hr
    simp only [GetOverview, hr]
    cases dec.overview r.Body <;> rfl
  refine ⟨h srv resp hresp, ?_⟩
  intro srv2 resp2 h2 hb
  rw [h srv2 resp2 h2, h srv resp hresp, hb]

/-- Witness for C6: the body `null` under status 200 and under status 500. -/
theorem overview_depends_on_body_only_witness :
    (GetOverview tinyDecoders (nullServer 200 "200 OK") "42" freshState).1 = Except.ok none ∧
    (GetOverview tinyDecoders (nullServer 500 "500 Internal Server Error") "42" freshState).1
      = (GetOverview tinyDecoders (nullServer 200 "200 OK") "42" freshState).1 :=
  have h := overview_depends_on_body_only tinyDecoders (nullServer 200 "200 OK") "42" freshState
    (plainResponse 200 "200 OK" "null") rfl
  ⟨h.1, h.2 (nullServer 500 "500 Internal Server Error")
    (plainResponse 500 "500 Internal Server Error" "null") rfl rfl⟩

/-- C9: `GetPanelList`, `GetTemperatures` and `GetOverview` leave the client (credentials,
base URL and version token) as it was and send exactly one request, which is not a login
request, whatever the server answers; hence two fetch calls in a row send requests built
from the same client, and the bodies of the POST requests carry its version token. -/
theorem fetch_leaves_client_unchanged (dec : Decoders) (srv : Server) (st : State) :
    ((GetPanelList dec srv st).2.client = st.client ∧
      (GetPanelList dec srv st).2.log = st.log ++ [panelListRequest st.client]) ∧
    (∀ panelID, (GetTemperatures dec srv panelID st).2.client = st.client ∧
      (GetTemperatures dec srv panelID st).2.log
        = st.log ++ [temperaturesRequest st.client panelID]) ∧
    (∀ panelID, (GetOverview dec srv panelID st).2.client = st.client ∧
      (GetOverview dec srv panelID st).2.log = st.log ++ [overviewRequest st.client panelID]) ∧
    (∀ (f : Fetch) (c : Client), Fetch.request st.client f ≠ loginRequest c) ∧
    (∀ f g : Fetch,
      (Fetch.run dec srv (Fetch.run dec srv st f) g).client = st.client ∧
      (Fetch.run dec srv (Fetch.run dec srv st f) g).log
        = st.log ++ [Fetch.request st.client f, Fetch.request st.client g]) ∧
    (∀ panelID, (temperaturesRequest st.client panelID).body
        = panelBody panelID st.client.version ∧
      (overviewRequest st.client panelID).body = panelBody panelID st.client.version) := by
  have hP := GetPanelList_state dec srv
  have hT := fun (s : State) (p : String) => GetTemperatures_state dec srv p s
  have hO := fun (s : State) (p : String) => GetOverview_state dec srv p s
  have hrun : ∀ (s : State) (f : Fetch), Fetch.run dec srv s f
      = { client := s.client, log := s.log ++ [Fetch.request s.client f] } := by
    intro s f
    cases f with
    | panelList => exact hP s
    | temperatures p => exact hT s p
    | overview p => exact hO s p
  refine ⟨?_, ?_, ?_, ?_, ?_, ?_⟩
  · rw [hP]; exact ⟨rfl, rfl⟩
  · intro p; rw [hT]; exact ⟨rfl, rfl⟩
  · intro p; rw [hO]; exact ⟨rfl, rfl⟩
  · intro f c h
    cases f with
    | panelList =>
      have hm := congrArg Request.method h
      simp [Fetch.request, panelListRequest, loginRequest] at hm
    | temperatures p =>
      have hm := congrArg Request.contentType h
      simp [Fetch.request, temperaturesRequest, loginRequest] at hm
    | overview p =>
      have hm := congrArg Request.contentType h
      simp [Fetch.request, overviewRequest, loginRequest] at hm
  · intro f g
    rw [hrun, hrun]
    simp
  · intro p
    exact ⟨rfl, rfl⟩

/-- C10, the code at the failing input: the login is answered with 302, the landing page
breaks off with a read error after the script reference, and `Login` returns no error
and stores the token read from the broken body. -/
theorem login_ignores_read_error :
    (ReadAll { data := "<script src=\"/Scripts/main.js?vAB12_CD\"></scr",
               readErr := some (GoError.foreign "unexpected EOF") }).2
      = some (GoError.foreign "unexpected EOF") ∧
    (Login brokenLandingServer freshState).1 = none ∧
    (Login brokenLandingServer freshState).2.client.version = "vAB12_CD" := by
  refine ⟨rfl, ?_, ?_⟩ <;> rfl

/-- The compiled pattern, item by item. -/
theorem versionPattern_eq : versionPattern = [Item.char '"', Item.char '/', Item.char 'S', Item.char 'c', Item.char 'r', Item.char 'i', Item.char 'p', Item.char 't', Item.char 's', Item.char '/', Item.char 'm', Item.char 'a', Item.char 'i', Item.char 'n', Item.anyNotNL, Item.char 'j', Item.char 's', Item.char '?', Item.groupOpen, Item.char 'v', Item.starClass [('A', 'Z'), ('0', '9'), ('_', '_')], Item.groupClose, Item.char '"'] := by rfl

/-- The literal start of the script reference, character by character. -/
theorem fragment_data : "\"/Scripts/main.js?v".data = ['"', '/', 'S', 'c', 'r', 'i', 'p', 't', 's', '/', 'm', 'a', 'i', 'n', '.', 'j', 's', '?', 'v'] := by rfl

/-- Every token character is in the class `[A-Z0-9_]`. -/
theorem inClass_tokenChars : ∀ c ∈ tokenChars, inClass [('A', 'Z'), ('0', '9'), ('_', '_')] c = true := by
  decide

/-- A greedy repetition over a run of class characters that ends before a character
outside the class, where the continuation succeeds, takes the whole run. -/
theorem starLoop_run (p : Char → Bool) (k : List Char → Option Slots) (x : Char)
    (rest : List Char) (r : Slots) (hx : p x = false) (hk : k (x :: rest) = some r) :
    ∀ run : List Char, (∀ c ∈ run, p c = true) → starLoop p k (run ++ x :: rest) = some r
  | [], _ => by simp [starLoop, hx, hk]
  | c :: run, h => by
    have hc : p c = true := h c (List.mem_cons_self _ _)
    have ih := starLoop_run p k x rest r hx hk run (fun d hd => h d (List.mem_cons_of_mem _ hd))
    simp [starLoop, hc, ih]

/-- The pattern matches at a script reference and captures `v` and the token. -/
theorem matchHere_fragment (T post : List Char) (hT : ∀ c ∈ T, c ∈ tokenChars) :
    matchHere versionPattern ("\"/Scripts/main.js?v".data ++ T ++ '"' :: post) noSlots
      = some { groupStart := some ('v' :: T ++ '"' :: post), groupEnd := some ('"' :: post),
               matchEnd := post } := by
  rw [versionPattern_eq, fragment_data]
  simp only [matchHere, noSlots, List.cons_append, List.nil_append, List.append_assoc]
  simp only [↓reduceIte, Char.reduceEq]
  exact starLoop_run _ _ '"' post _ (by decide) (by simp)
    T (fun c hc => inClass_tokenChars c (hT c hc))

/-- The search passes over the positions at which the pattern does not match. -/
theorem search_skip (ps : List Item) (rest : List Char) :
    ∀ pre : List Char,
      (∀ i, i < pre.length → matchHere ps ((pre ++ rest).drop i) noSlots = none) →
      search ps (pre ++ rest) = search ps rest
  | [], _ => rfl
  | a :: pre, h => by
    have h0 : matchHere ps (a :: (pre ++ rest)) noSlots = none := h 0 (by simp)
    have ih := search_skip ps rest pre (fun i hi => by
      have := h (i + 1) (by simpa using hi)
      simpa using this)
    simp [search, h0, ih]

/-- The text between the start of a run and its end is the run. -/
theorem between_append (run stop : List Char) : between (run ++ stop) stop = String.mk run := by
  simp [between]

/-- Extraction from a body whose leftmost match is a script reference. -/
theorem extractVersion_fragment (pre T post : String)
    (hT : ∀ c ∈ T.data, c ∈ tokenChars)
    (hno : ∀ i, i < pre.length →
      matchHere versionPattern
        ((pre ++ "\"/Scripts/main.js?v" ++ T ++ "\"" ++ post).data.drop i) noSlots = none) :
    extractVersion (pre ++ "\"/Scripts/main.js?v" ++ T ++ "\"" ++ post) = Except.ok ("v" ++ T) := by
  have hd : (pre ++ "\"/Scripts/main.js?v" ++ T ++ "\"" ++ post).data
      = pre.data ++ ("\"/Scripts/main.js?v".data ++ T.data ++ '"' :: post.data) := by
    simp [String.data_append]
  rw [hd] at hno
  have hs := search_skip versionPattern _ pre.data hno
  have hm := matchHere_fragment T.data post.data hT
  have hs2 : search versionPattern ("\"/Scripts/main.js?v".data ++ T.data ++ '"' :: post.data)
      = some ("\"/Scripts/main.js?v".data ++ T.data ++ '"' :: post.data,
          { groupStart := some ('v' :: T.data ++ '"' :: post.data),
            groupEnd := some ('"' :: post.data), matchEnd := post.data }) := by
    rw [fragment_data] at hm ⊢
    simp only [List.cons_append] at hm ⊢
    simp only [search, hm]
  have hb : between ('v' :: T.data ++ '"' :: post.data) ('"' :: post.data) = "v" ++ T := by
    have := between_append ('v' :: T.data) ('"' :: post.data)
    rw [this]
    apply String.ext
    simp [String.data_append]
  simp only [extractVersion, FindStringSubmatch, hd, hs, hs2, hb]


/-- C3: when the landing page is `pre ++ "\"/Scripts/main.js?v" ++ T ++ "\"" ++ post`, the
token `T` is made of the characters `A`-`Z`, `0`-`9` and `_` (it may be empty) and the
pattern matches at no position inside `pre`, version discovery returns `"v" ++ T` and no
error. -/
theorem getVersion_finds_token (srv : Server) (log : List Request) (resp : Response)
    (pre T post : String)
    (hresp : srv log versionRequest = Except.ok resp)
    (hbody : resp.Body.data = pre ++ "\"/Scripts/main.js?v" ++ T ++ "\"" ++ post)
    (hT : ∀ c ∈ T.data, c ∈ tokenChars)
    (hno : ∀ i, i < pre.length →
      matchHere versionPattern
        ((pre ++ "\"/Scripts/main.js?v" ++ T ++ "\"" ++ post).data.drop i) noSlots = none) :
    (getVersion srv log).1 = Except.ok ("v" ++ T) := by
  simp only [getVersion, hresp, ReadAll, hbody]
  exact extractVersion_fragment pre T post hT hno

/-- Witness for C3: the page `<script src="/Scripts/main.js?vAB12_CD"></script>` gives
exactly `vAB12_CD`. -/
theorem getVersion_finds_token_witness :
    (getVersion portalServer []).1 = Except.ok "vAB12_CD" :=
  getVersion_finds_token portalServer [] (plainResponse 200 "200 OK" landingPage)
    "<script src=" "AB12_CD" "></script>" rfl rfl (by decide) (by decide)


/-- C4, the code at the failing input: the page does not contain the literal text
`"/Scripts/main.js?v`, so it contains no script reference in the sense of the
specification, and version discovery still returns a token and no error, because the
dot of the pattern stands for any character. -/
theorem getVersion_accepts_lookalike :
    ¬ ("\"/Scripts/main.js?v".data <:+: lookalikePage.data) ∧
    containsScriptReference lookalikePage = false ∧
    (getVersion lookalikeServer []).1 = Except.ok "vAB12_CD" := by
  refine ⟨by decide, by decide, rfl⟩

/-- Nothing is skipped before a character that is not whitespace. -/
theorem skipWs_cons (c : Char) (r : List Char) (hc : isWs c = false) :
    skipWs (c :: r) = c :: r := by
  simp [skipWs, hc]

/-- A run of plain characters before a closing quote is a JSON string with that content. -/
theorem parseStringBody_plain (rest : List Char) :
    ∀ (s : List Char) (fuel : Nat), (∀ c ∈ s, jsonPlain c = true) → s.length < fuel →
      parseStringBody fuel (s ++ '"' :: rest) = some (s, rest)
  | [], fuel, _, hf => by
    obtain ⟨f, rfl⟩ : ∃ f, fuel = f + 1 := ⟨fuel - 1, by omega⟩
    simp [parseStringBody]
  | c :: s, fuel, hs, hf => by
    obtain ⟨f, rfl⟩ : ∃ f, fuel = f + 1 := ⟨fuel - 1, by omega⟩
    have hc : jsonPlain c = true := hs c (List.mem_cons_self _ _)
    have ih := parseStringBody_plain rest s f (fun d hd => hs d (List.mem_cons_of_mem _ hd))
      (by simp at hf; omega)
    simp only [jsonPlain, Bool.and_eq_true, decide_eq_true_eq, bne_iff_ne, ne_eq] at hc
    obtain ⟨⟨h1, h2⟩, h3⟩ := hc
    have h4 : ¬ c.toNat < 32 := by omega
    simp [parseStringBody, h1, h2, h4, ih, consChar]

/-- A quoted run of plain characters parses to the string of that run. -/
theorem parseValue_string (fuel : Nat) (s rest : List Char) (hs : ∀ c ∈ s, jsonPlain c = true) :
    parseValue (fuel + 1) ('"' :: (s ++ '"' :: rest)) = some (Json.str (String.mk s), rest) := by
  have h := parseStringBody_plain rest s (s ++ '"' :: rest).length hs (by simp)
  simp [parseValue, skipWs, isWs, h, -List.length_append, -List.length_cons]

/-- One member with a plain key: what follows is decided by the character after its value. -/
theorem parseMembers_step (pv : List Char → Option (Json × List Char)) (n : Nat)
    (k r2 : List Char) (hk : ∀ c ∈ k, jsonPlain c = true) (v : Json) (c : Char) (r4 : List Char)
    (hv : pv r2 = some (v, c :: r4)) (hc : isWs c = false) :
    parseMembers pv (n + 1) ('"' :: (k ++ '"' :: ':' :: r2))
      = if c = '\x7d' then some ([(String.mk k, v)], r4)
        else if c = ',' then
          (parseMembers pv n r4).map fun p => ((String.mk k, v) :: p.1, p.2)
        else none := by
  have h := parseStringBody_plain (':' :: r2) k (k ++ '"' :: ':' :: r2).length hk (by simp)
  have hw : skipWs (c :: r4) = c :: r4 := skipWs_cons c r4 hc
  have hq : skipWs ('"' :: (k ++ '"' :: ':' :: r2)) = '"' :: (k ++ '"' :: ':' :: r2) :=
    skipWs_cons _ _ (by decide)
  have hcol : skipWs (':' :: r2) = ':' :: r2 := skipWs_cons _ _ (by decide)
  simp [parseMembers, h, hv, hw, hq, hcol, -List.length_append, -List.length_cons]


/-- An opening brace followed by members parses to the object of those members. -/
theorem parseValue_object (fuel : Nat) (rest2 : List Char) (ms : List (String × Json))
    (r : List Char)
    (h : parseMembers (parseValue fuel) ('"' :: rest2).length ('"' :: rest2) = some (ms, r)) :
    parseValue (fuel + 1) ('\x7b' :: '"' :: rest2) = some (Json.obj ms, r) := by
  have hq : skipWs ('"' :: rest2) = '"' :: rest2 := skipWs_cons _ _ (by decide)
  have hb : skipWs ('\x7b' :: '"' :: rest2) = '\x7b' :: '"' :: rest2 := skipWs_cons _ _ (by decide)
  simp [parseValue, hq, hb, h, -List.length_append, -List.length_cons]

/-- The request body, character by character. -/
theorem panelBody_data (panelID version : String) :
    (panelBody panelID version).data
      = '\x7b' :: '"' :: (['i', 'd'] ++ '"' :: ':' :: '"' :: (panelID.data ++ '"' :: ',' :: '"' ::
          (['V', 'e', 'r', 's', 'i', 'o', 'n'] ++ '"' :: ':' :: '"' ::
            (version.data ++ '"' :: ['\x7d'])))) := by
  simp [panelBody, String.data_append]

/-- The request body for plain strings parses to the two members `id` and `Version`. -/
theorem panelBody_parses (panelID version : String)
    (hp : ∀ c ∈ panelID.data, jsonPlain c = true)
    (hv : ∀ c ∈ version.data, jsonPlain c = true) :
    jsonStringMembers (panelBody panelID version)
      = some [("id", panelID), ("Version", version)] := by
  have hid : ∀ c ∈ ['i', 'd'], jsonPlain c = true := by decide
  have hver : ∀ c ∈ ['V', 'e', 'r', 's', 'i', 'o', 'n'], jsonPlain c = true := by decide
  have hlen : (panelBody panelID version).length
      = (panelID.data.length + version.data.length + 19) + 3 := by
    show (panelBody panelID version).data.length = _
    rw [panelBody_data]
    simp only [List.length_cons, List.length_append, List.length_nil]
    omega
  have hlen2 : ('"' :: (['i', 'd'] ++ '"' :: ':' :: '"' :: (panelID.data ++ '"' :: ',' :: '"' ::
      (['V', 'e', 'r', 's', 'i', 'o', 'n'] ++ '"' :: ':' :: '"' ::
        (version.data ++ '"' :: ['\x7d']))))).length
      = (panelID.data.length + version.data.length + 19) + 1 + 1 := by
    simp only [List.length_cons, List.length_append, List.length_nil]
    omega
  generalize panelID.data.length + version.data.length + 19 = n at hlen hlen2
  have step2 : parseMembers (parseValue (n + 2 + 1)) (n + 1)
      ('"' :: (['V', 'e', 'r', 's', 'i', 'o', 'n'] ++ '"' :: ':' :: '"' ::
        (version.data ++ '"' :: ['\x7d'])))
      = some ([("Version", Json.str version)], []) := by
    rw [parseMembers_step (parseValue (n + 2 + 1)) n ['V', 'e', 'r', 's', 'i', 'o', 'n'] _ hver
      (Json.str version) '\x7d' [] (parseValue_string (n + 2) version.data ['\x7d'] hv)
      (by decide)]
    rfl
  have step1 : parseMembers (parseValue (n + 2 + 1)) (n + 1 + 1)
      ('"' :: (['i', 'd'] ++ '"' :: ':' :: '"' :: (panelID.data ++ '"' :: ',' :: '"' ::
        (['V', 'e', 'r', 's', 'i', 'o', 'n'] ++ '"' :: ':' :: '"' ::
          (version.data ++ '"' :: ['\x7d'])))))
      = some ([("id", Json.str panelID), ("Version", Json.str version)], []) := by
    rw [parseMembers_step (parseValue (n + 2 + 1)) (n + 1) ['i', 'd'] _ hid (Json.str panelID)
      ',' _ (parseValue_string (n + 2) panelID.data _ hp) (by decide)]
    rw [step2]
    rfl
  have hval : parseValue (n + 3 + 1) (panelBody panelID version).data
      = some (Json.obj [("id", Json.str panelID), ("Version", Json.str version)], []) := by
    rw [panelBody_data]
    exact parseValue_object (n + 3) _ _ _ (by rw [hlen2]; exact step1)
  simp [jsonStringMembers, parseJson, hlen, hval, skipWs, stringMembers]


/-- An ASCII byte occurs in the encoding of a character only as that character. -/
theorem not_mem_utf8EncodeChar (c : Char) (b : Nat) (hb : b < 0x80) (h : c.toNat ≠ b) :
    b ∉ utf8EncodeChar c := by
  unfold utf8EncodeChar
  split_ifs <;> simp <;> omega

/-- An ASCII byte that is none of the characters of a text is none of its bytes. -/
theorem not_mem_utf8Bytes (b : Nat) (hb : b < 0x80) :
    ∀ s : List Char, (∀ c ∈ s, c.toNat ≠ b) → b ∉ utf8Bytes s
  | [], _ => by simp [utf8Bytes]
  | c :: s, h => by
    have h1 := not_mem_utf8EncodeChar c b hb (h c (List.mem_cons_self _ _))
    have h2 := not_mem_utf8Bytes b hb s (fun d hd => h d (List.mem_cons_of_mem _ hd))
    simp [utf8Bytes, h1, h2]

/-- Encoding distributes over concatenation. -/
theorem utf8Bytes_append : ∀ s t : List Char, utf8Bytes (s ++ t) = utf8Bytes s ++ utf8Bytes t
  | [], t => by simp [utf8Bytes]
  | c :: s, t => by simp [utf8Bytes, utf8Bytes_append s t]

/-- A byte string without the separator is one piece. -/
theorem splitBytes_of_not_mem (sep : Nat) :
    ∀ xs : List Nat, sep ∉ xs → splitBytes sep xs = [xs]
  | [], _ => rfl
  | x :: xs, h => by
    have hx : x ≠ sep := fun e => h (e ▸ List.mem_cons_self _ _)
    have ih := splitBytes_of_not_mem sep xs (fun m => h (List.mem_cons_of_mem _ m))
    simp [splitBytes, hx, ih]

/-- The first piece ends at the first separator. -/
theorem splitBytes_append (sep : Nat) (ys : List Nat) :
    ∀ xs : List Nat, sep ∉ xs → splitBytes sep (xs ++ sep :: ys) = xs :: splitBytes sep ys
  | [], _ => by simp [splitBytes]
  | x :: xs, h => by
    have hx : x ≠ sep := fun e => h (e ▸ List.mem_cons_self _ _)
    have ih := splitBytes_append sep ys xs (fun m => h (List.mem_cons_of_mem _ m))
    simp [splitBytes, hx, ih]

/-- A piece is cut at its first `=`. -/
theorem cutAtEquals_append (ys : List Nat) :
    ∀ xs : List Nat, 0x3D ∉ xs → cutAtEquals (xs ++ 0x3D :: ys) = (xs, ys)
  | [], _ => by simp [cutAtEquals]
  | x :: xs, h => by
    have hx : x ≠ 0x3D := fun e => h (e ▸ List.mem_cons_self _ _)
    have ih := cutAtEquals_append ys xs (fun m => h (List.mem_cons_of_mem _ m))
    simp [cutAtEquals, hx, ih]

/-- Without `+` nothing is replaced. -/
theorem plusToSpace_of_not_mem : ∀ xs : List Nat, 0x2B ∉ xs → plusToSpace xs = xs
  | [], _ => rfl
  | x :: xs, h => by
    have hx : x ≠ 0x2B := fun e => h (e ▸ List.mem_cons_self _ _)
    have ih := plusToSpace_of_not_mem xs (fun m => h (List.mem_cons_of_mem _ m))
    simp only [plusToSpace] at ih ⊢
    simp [hx, ih]

/-- Without `%` nothing is decoded. -/
theorem percentDecode_of_not_mem :
    ∀ (xs : List Nat) (fuel : Nat), 0x25 ∉ xs → xs.length ≤ fuel → percentDecode fuel xs = xs
  | [], fuel, _, _ => by cases fuel <;> rfl
  | x :: xs, fuel, h, hf => by
    obtain ⟨f, rfl⟩ : ∃ f, fuel = f + 1 := ⟨fuel - 1, by simp at hf; omega⟩
    have hx : x ≠ 0x25 := fun e => h (e ▸ List.mem_cons_self _ _)
    have ih := percentDecode_of_not_mem xs f (fun m => h (List.mem_cons_of_mem _ m))
      (by simp at hf; omega)
    simp [percentDecode, hx, ih]

/-- A component without `+` and `%` decodes to itself. -/
theorem decodeComponent_of_plain (xs : List Nat) (h1 : 0x2B ∉ xs) (h2 : 0x25 ∉ xs) :
    decodeComponent xs = xs := by
  unfold decodeComponent
  rw [plusToSpace_of_not_mem xs h1]
  exact percentDecode_of_not_mem xs xs.length h2 (le_refl _)

/-- The bytes of a text of plain characters hold no `&`, `+` or `%`. -/
theorem utf8_plain (s : String) (h : ∀ c ∈ s.data, formPlain c = true) :
    0x26 ∉ utf8 s ∧ 0x2B ∉ utf8 s ∧ 0x25 ∉ utf8 s := by
  have hc : ∀ c ∈ s.data, c.toNat ≠ 0x26 ∧ c.toNat ≠ 0x2B ∧ c.toNat ≠ 0x25 := by
    intro c hc
    have := h c hc
    simp only [formPlain, Bool.and_eq_true, decide_eq_true_eq] at this
    obtain ⟨⟨h1, h2⟩, h3⟩ := this
    refine ⟨fun e => h1 ?_, fun e => h2 ?_, fun e => h3 ?_⟩ <;>
      exact (Char.ofNat_toNat c).symm.trans (by rw [e])
  exact ⟨not_mem_utf8Bytes _ (by decide) _ (fun c m => (hc c m).1),
    not_mem_utf8Bytes _ (by decide) _ (fun c m => (hc c m).2.1),
    not_mem_utf8Bytes _ (by decide) _ (fun c m => (hc c m).2.2)⟩

/-- The login body of a client with plain credentials decodes to its two fields. -/
theorem loginBody_decodes (c : Client)
    (hu : ∀ ch ∈ c.userID.data, formPlain ch = true)
    (hp : ∀ ch ∈ c.password.data, formPlain ch = true) :
    formDecode (utf8 (loginRequest c).body)
      = [(utf8 "userID", utf8 c.userID), (utf8 "password", utf8 c.password)] := by
  obtain ⟨u1, u2, u3⟩ := utf8_plain c.userID hu
  obtain ⟨p1, p2, p3⟩ := utf8_plain c.password hp
  have hbody : utf8 (loginRequest c).body
      = (utf8 "userID" ++ 0x3D :: utf8 c.userID) ++ 0x26 ::
          (utf8 "password" ++ 0x3D :: utf8 c.password) := by
    simp only [utf8, loginRequest, String.data_append, utf8Bytes_append]
    have e1 : utf8Bytes "userID=".data = utf8Bytes "userID".data ++ [0x3D] := by decide
    have e2 : utf8Bytes "&password=".data = 0x26 :: utf8Bytes "password".data ++ [0x3D] := by
      decide
    rw [e1, e2]
    simp
  have n1 : 0x26 ∉ utf8 "userID" ++ 0x3D :: utf8 c.userID := by
    have : 0x26 ∉ utf8 "userID" := by decide
    simp [this, u1]
  have n2 : 0x26 ∉ utf8 "password" ++ 0x3D :: utf8 c.password := by
    have : 0x26 ∉ utf8 "password" := by decide
    simp [this, p1]
  have k1 : (0x3D : Nat) ∉ utf8 "userID" := by decide
  have k2 : (0x3D : Nat) ∉ utf8 "password" := by decide
  have d1 : decodeComponent (utf8 "userID") = utf8 "userID" := by decide
  have d2 : decodeComponent (utf8 "password") = utf8 "password" := by decide
  have ne1 : (utf8 "userID" ++ 0x3D :: utf8 c.userID).isEmpty = false := by
    cases h : utf8 "userID" <;> simp
  have ne2 : (utf8 "password" ++ 0x3D :: utf8 c.password).isEmpty = false := by
    cases h : utf8 "password" <;> simp
  rw [hbody, formDecode, splitBytes_append _ _ _ n1, splitBytes_of_not_mem _ _ n2]
  simp only [List.filter, ne1, ne2, Bool.not_false, List.map]
  rw [cutAtEquals_append _ _ k1, cutAtEquals_append _ _ k2, d1, d2,
    decodeComponent_of_plain _ u2 u3, decodeComponent_of_plain _ p2 p3]

/-- C7 as amended: for a panel identifier and a version token without double quote,
backslash and control character, the one request that `GetTemperatures` sends, and the one
that `GetOverview` sends, has a body that is a well-formed JSON object with exactly the two
members `id` and `Version`, whose values are the panel identifier and the version token. -/
theorem request_body_is_json_object (dec : Decoders) (srv : Server) (st : State)
    (panelID : String)
    (hp : ∀ c ∈ panelID.data, jsonPlain c = true)
    (hv : ∀ c ∈ st.client.version.data, jsonPlain c = true) :
    (∃ req, (GetTemperatures dec srv panelID st).2.log = st.log ++ [req] ∧
      jsonStringMembers req.body = some [("id", panelID), ("Version", st.client.version)]) ∧
    (∃ req, (GetOverview dec srv panelID st).2.log = st.log ++ [req] ∧
      jsonStringMembers req.body = some [("id", panelID), ("Version", st.client.version)]) := by
  refine ⟨⟨temperaturesRequest st.client panelID, ?_, ?_⟩,
    ⟨overviewRequest st.client panelID, ?_, ?_⟩⟩
  · rw [GetTemperatures_state]
  · exact panelBody_parses panelID st.client.version hp hv
  · rw [GetOverview_state]
  · exact panelBody_parses panelID st.client.version hp hv

/-- Witness for C7 as amended: the panel `42` after a login. -/
theorem request_body_is_json_object_witness :
    (∃ req, (GetTemperatures tinyDecoders unauthorizedServer "42" loggedInState).2.log
        = loggedInState.log ++ [req] ∧
      jsonStringMembers req.body = some [("id", "42"), ("Version", "vAB12_CD")]) ∧
    (∃ req, (GetOverview tinyDecoders unauthorizedServer "42" loggedInState).2.log
        = loggedInState.log ++ [req] ∧
      jsonStringMembers req.body = some [("id", "42"), ("Version", "vAB12_CD")]) :=
  request_body_is_json_object tinyDecoders unauthorizedServer loggedInState "42"
    (by decide) (by decide)

/-- C7 fails as stated: for the panel identifier `a\b` the body that `GetTemperatures`
sends is well formed, and its member `id` is `a` followed by a backspace, not the panel
identifier; for the panel identifiers `a"b` and `a`, newline, `b` the body that
`GetOverview` sends is not a JSON text at all. -/
theorem request_body_not_escaped :
    (GetTemperatures tinyDecoders unauthorizedServer "a\\b" loggedInState).2.log.map
        (fun req => jsonStringMembers req.body)
      = [some [("id", "a\x08"), ("Version", "vAB12_CD")]] ∧
    (GetTemperatures tinyDecoders unauthorizedServer "a\\b" loggedInState).2.log.map
        (fun req => jsonStringMembers req.body)
      ≠ [some [("id", "a\\b"), ("Version", "vAB12_CD")]] ∧
    (GetOverview tinyDecoders unauthorizedServer "a\"b" loggedInState).2.log.map
        (fun req => (parseJson req.body).isSome)
      = [false] ∧
    (GetOverview tinyDecoders unauthorizedServer "a\nb" loggedInState).2.log.map
        (fun req => (parseJson req.body).isSome)
      = [false] := by
  refine ⟨by decide, by decide, by decide, by decide⟩

/-- C8 as amended: for a user identifier and a password without `&`, `+` and `%` (they
may hold `=` and spaces), the body of the login POST of the client that `NewClient` makes
decodes as `application/x-www-form-urlencoded` to exactly the field `userID` with the user
identifier and the field `password` with the password; the login POST is the first request
that `Login` sends. -/
theorem login_body_form_decodes (userID password : String) (c : Client)
    (hc : NewClient userID password = Except.ok c)
    (hu : ∀ ch ∈ userID.data, formPlain ch = true)
    (hp : ∀ ch ∈ password.data, formPlain ch = true) :
    formDecode (utf8 (loginRequest c).body)
      = [(utf8 "userID", utf8 userID), (utf8 "password", utf8 password)] ∧
    ∀ (srv : Server) (log : List Request), ∃ more,
      (Login srv { client := c, log := log }).2.log = log ++ loginRequest c :: more := by
  simp only [NewClient, Except.ok.injEq] at hc
  subst hc
  exact ⟨loginBody_decodes _ hu hp, fun srv log => Login_log srv { client := _, log := log }⟩

/-- Witness for C8 as amended: a password with a space and an equals sign. -/
theorem login_body_form_decodes_witness :
    formDecode (utf8 "userID=user@example.com&password=se cr=et")
      = [(utf8 "userID", utf8 "user@example.com"), (utf8 "password", utf8 "se cr=et")] :=
  (login_body_form_decodes "user@example.com" "se cr=et"
    { userID := "user@example.com", password := "se cr=et", BaseURL := BaseURL, version := "" }
    rfl (by decide) (by decide)).1

/-- C8 fails as stated: a password with `&` decodes to a shorter password and one more
field, a password with `+` decodes to one with a space, and a password with `%41` decodes
to one with `A`. -/
theorem login_body_not_encoded :
    (∃ c, NewClient "alice" "p&q" = Except.ok c ∧
      formDecode (utf8 (loginRequest c).body)
        = [(utf8 "userID", utf8 "alice"), (utf8 "password", utf8 "p"), (utf8 "q", [])]) ∧
    (∃ c, NewClient "alice" "p+q" = Except.ok c ∧
      formDecode (utf8 (loginRequest c).body)
        = [(utf8 "userID", utf8 "alice"), (utf8 "password", utf8 "p q")]) ∧
    (∃ c, NewClient "alice" "p%41" = Except.ok c ∧
      formDecode (utf8 (loginRequest c).body)
        = [(utf8 "userID", utf8 "alice"), (utf8 "password", utf8 "pA")]) ∧
    (∃ c, NewClient "alice" "p&q" = Except.ok c ∧
      formDecode (utf8 (loginRequest c).body)
        ≠ [(utf8 "userID", utf8 "alice"), (utf8 "password", utf8 "p&q")]) := by
  refine ⟨⟨_, rfl, by decide⟩, ⟨_, rfl, by decide⟩, ⟨_, rfl, by decide⟩, ⟨_, rfl, by decide⟩⟩

end Sectoralarm
